import Mathlib

/-!
# Verification of the LazorKit starter's subscription and session logic

This file is a shallow embedding, in Lean 4, of the local data-manipulation
logic of the repository:

* `src/lib/subscription.ts` — the localStorage-backed subscription ledger
  (`createSubscription`, `cancelSubscription`, `recordPayment`,
  `calculateNextBillingDate`, `isPaymentDue`, `getDaysUntilBilling`,
  `loadSubscriptions`);
* `src/hooks/use-session.ts` — session persistence
  (`saveSession`, `loadSession`, `isValidSession`).

Conventions of the embedding:

* JavaScript timestamps (milliseconds since the Unix epoch, produced by
  `Date.now()` / `Date.prototype.getTime()`) are modelled as `Int`.
  Within the range used by `Date`, IEEE doubles represent these integers
  exactly, so integer arithmetic is faithful.
* The host `Date` object is modelled by the ECMA-262 specification of
  `MakeDay` / `YearFromTime` / `MonthFromTime` / `DateFromTime`, i.e. the
  proleptic Gregorian calendar, with the host time zone taken to be UTC
  (so one calendar day is exactly `msPerDay` milliseconds).  The civil
  calendar conversions are written in the standard `days_from_civil` /
  `civil_from_days` form (era = 400 years = 146097 days), which computes
  the same function as the ECMA-262 date formulas.  `Int` division in
  Lean is Euclidean; for the positive divisors used throughout it
  coincides with the floor division used by ECMA-262.
* `localStorage` cells are modelled by `StorageCell`: a cell is absent,
  holds unparseable (malformed) text, or holds the serialization of a
  value of the expected type.  `JSON.parse` throwing on malformed input,
  and the surrounding `try`/`catch`, are modelled by total functions on
  `StorageCell`.
* Mutating functions take the loaded ledger as an argument and return the
  saved ledger, mirroring each function's
  `loadSubscriptions → mutate → saveSubscriptions` sequence.
-/

/-! ## The civil (proleptic Gregorian) calendar, as specified by ECMA-262 -/

/-- Milliseconds per day (`msPerDay` in ECMA-262). -/
def msPerDay : Int := 86400000

/-- ECMA-262 `Day(t)`: the day number containing the time value `t`. -/
def dayNumber (t : Int) : Int := t / 86400000

/-- ECMA-262 `TimeWithinDay(t)`: the millisecond of the day, in
    `[0, msPerDay)`. -/
def timeWithinDay (t : Int) : Int := t % 86400000

/-- Day-of-era start of year-of-era `y` in a 400-year Gregorian era whose
    years begin in March (the `days_from_civil` year offset
    `365 y + ⌊y/4⌋ - ⌊y/100⌋`). -/
def eraYearStart (y : Int) : Int := 365*y + y/4 - y/100

/-- Year-of-era of a day-of-era (the `civil_from_days` formula). -/
def yoeOfDoe (a : Int) : Int := (a - a/1460 + a/36524 - a/146096)/365

/-- The civil date of a day number (days since 1970-01-01): returns
    `(year, month, day)` with `month ∈ [1,12]` and `day ∈ [1,31]`.
    This is the standard `civil_from_days` algorithm and computes
    ECMA-262 `YearFromTime` / `MonthFromTime + 1` / `DateFromTime`. -/
def civilFromDays (z : Int) : Int × Int × Int :=
  let era := (z + 719468) / 146097
  let doe := (z + 719468) % 146097
  let yoe := yoeOfDoe doe
  let doy := doe - eraYearStart yoe
  let mp := (5 * doy + 2) / 153
  let d := doy - (153 * mp + 2) / 5 + 1
  let m := if mp < 10 then mp + 3 else mp - 9
  (yoe + era * 400 + (if m ≤ 2 then 1 else 0), m, d)

/-- Day number of the civil date `(y, m, d)`; `m` is 1-based, and `d` may
    lie outside the month (day offsets roll over into adjacent months,
    exactly as in ECMA-262 `MakeDay`).  This is the standard
    `days_from_civil` algorithm. -/
def daysFromCivil (y m d : Int) : Int :=
  let y' := y - (if m ≤ 2 then 1 else 0)
  let era := y' / 400
  let yoe := y' - era * 400
  let doy := (153 * (if 2 < m then m - 3 else m + 9) + 2) / 5 + d - 1
  era * 146097 + (eraYearStart yoe + doy) - 719468

/-- ECMA-262 `MakeDay(year, month, date)`: `month` is 0-based and is
    normalized into the year; `date` offsets roll over freely. -/
def makeDay (year month date : Int) : Int :=
  daysFromCivil (year + month / 12) (month % 12 + 1) date

/-! ### Correctness of the year-of-era formula

`yoeOfDoe` is an arithmetic approximation; its correctness (every
day-of-era falls inside the year it computes) is established by checking
the two boundary days of each of the 400 years of an era and interpolating
by monotonicity. -/

theorem yoe_mono_step (a : Int) (h0 : 0 ≤ a) (h1 : a ≤ 146095) :
    yoeOfDoe a ≤ yoeOfDoe (a+1) := by
  unfold yoeOfDoe
  omega

theorem yoe_mono (a b : Int) (h0 : 0 ≤ a) (hab : a ≤ b) (hb : b ≤ 146096) :
    yoeOfDoe a ≤ yoeOfDoe b := by
  refine Int.le_induction (P := fun n => n ≤ 146096 → yoeOfDoe a ≤ yoeOfDoe n)
    (fun _ => le_refl _) (fun c hc ih hc1 =>
      le_trans (ih (by omega)) (yoe_mono_step c (by omega) (by omega))) b hab hb

/-- Boundary check for one year-of-era: the formula is right on the first
    and last day of year `k`. -/
def yoeCheckOne (k : Nat) : Bool :=
  let s := eraYearStart k
  let e := if k == 399 then (146097 : Int) else eraYearStart (k+1)
  yoeOfDoe s == k && yoeOfDoe (e - 1) == k

def yoeCheckUpTo : Nat → Bool
  | 0 => true
  | k+1 => yoeCheckOne k && yoeCheckUpTo k

set_option maxRecDepth 4000 in
theorem yoe_check : yoeCheckUpTo 400 = true := by decide

theorem yoeCheckOne_true (k : Nat) (hk : k < 400) : yoeCheckOne k = true := by
  have h : ∀ n : Nat, ∀ j : Nat, j < n → yoeCheckUpTo n = true → yoeCheckOne j = true := by
    intro n
    induction n with
    | zero => intro j hj; omega
    | succ m ih =>
      intro j hj hall
      simp only [yoeCheckUpTo, Bool.and_eq_true] at hall
      rcases Nat.lt_succ_iff_lt_or_eq.mp hj with h' | h'
      · exact ih j h' hall.2
      · subst h'; exact hall.1
  exact h 400 k hk yoe_check

theorem yoe_at_start (k : Nat) (hk : k < 400) : yoeOfDoe (eraYearStart k) = k := by
  have h := yoeCheckOne_true k hk
  simp only [yoeCheckOne, Bool.and_eq_true, beq_iff_eq] at h
  exact h.1

theorem yoe_at_end (k : Nat) (hk : k < 399) :
    yoeOfDoe (eraYearStart (k+1) - 1) = k := by
  have h := yoeCheckOne_true k (by omega)
  simp only [yoeCheckOne, Bool.and_eq_true, beq_iff_eq] at h
  rw [if_neg (by omega)] at h
  exact h.2

theorem yoe_at_last : yoeOfDoe 146096 = 399 := by
  have h := yoeCheckOne_true 399 (by omega)
  simp only [yoeCheckOne, Bool.and_eq_true, beq_iff_eq] at h
  norm_num at h
  exact h.2

theorem eraYearStart_le (k : Int) (h0 : 0 ≤ k) (h1 : k ≤ 400) :
    eraYearStart k ≤ 146096 := by
  unfold eraYearStart; omega

/-- The year-of-era formula is correct: the computed year contains the
    given day-of-era, with a day-of-year in `[0, 365]`. -/
theorem yoe_correct (a : Int) (h0 : 0 ≤ a) (h1 : a < 146097) :
    0 ≤ yoeOfDoe a ∧ yoeOfDoe a ≤ 399 ∧
    eraYearStart (yoeOfDoe a) ≤ a ∧ a - eraYearStart (yoeOfDoe a) ≤ 365 := by
  have hz : yoeOfDoe 0 = 0 := by
    have := yoe_at_start 0 (by omega)
    simpa [eraYearStart] using this
  have hlo : 0 ≤ yoeOfDoe a := by
    rw [← hz]; exact yoe_mono 0 a le_rfl h0 (by omega)
  have hhi : yoeOfDoe a ≤ 399 := by
    rw [← yoe_at_last]; exact yoe_mono a 146096 h0 (by omega) le_rfl
  set k := yoeOfDoe a with hk
  have hstart : eraYearStart k ≤ a := by
    by_contra hcon
    push_neg at hcon
    have hk1 : 1 ≤ k := by
      by_contra hk0
      push_neg at hk0
      have : k = 0 := by omega
      rw [this] at hcon
      simp [eraYearStart] at hcon
      omega
    have hkn : ∃ j : Nat, (j : Int) = k - 1 ∧ j < 399 := by
      refine ⟨(k - 1).toNat, ?_, ?_⟩ <;> omega
    obtain ⟨j, hj, hj399⟩ := hkn
    have hend := yoe_at_end j hj399
    have hjk : ((j : Int) + 1) = k := by omega
    rw [hjk] at hend
    have hbound : eraYearStart k ≤ 146096 + 1 := by
      have := eraYearStart_le k (by omega) (by omega)
      omega
    have hmono := yoe_mono a (eraYearStart k - 1) h0 (by omega) (by omega)
    rw [hend] at hmono
    omega
  refine ⟨hlo, hhi, hstart, ?_⟩
  by_cases hk399 : k = 399
  · have : eraYearStart k = 145731 := by rw [hk399]; decide
    omega
  · by_contra hcon
    push_neg at hcon
    have hnext : eraYearStart (k+1) ≤ eraYearStart k + 366 := by
      unfold eraYearStart; omega
    have hkn : ∃ j : Nat, (j : Int) = k + 1 ∧ j < 400 := by
      refine ⟨(k + 1).toNat, ?_, ?_⟩ <;> omega
    obtain ⟨j, hj, hj400⟩ := hkn
    have hstart' := yoe_at_start j hj400
    rw [hj] at hstart'
    have hmono := yoe_mono (eraYearStart (k+1)) a
      (by unfold eraYearStart; omega) (by omega) (by omega)
    rw [hstart'] at hmono
    omega

/-! ### Round-trip and ordering facts about the conversions -/

theorem daysFromCivil_shift (y m d k : Int) :
    daysFromCivil (y + 400 * k) m d = daysFromCivil y m d + 146097 * k := by
  simp only [daysFromCivil]
  rw [show y + 400 * k - (if m ≤ 2 then 1 else 0)
      = (y - (if m ≤ 2 then 1 else 0)) + 400 * k by ring]
  rw [show ((y - (if m ≤ 2 then 1 else 0)) + 400 * k)
        - ((y - (if m ≤ 2 then 1 else 0)) + 400 * k) / 400 * 400
      = (y - (if m ≤ 2 then 1 else 0))
        - (y - (if m ≤ 2 then 1 else 0)) / 400 * 400 by omega]
  omega

theorem daysFromCivil_marDec (yoe m d : Int) (h0 : 0 ≤ yoe) (h1 : yoe ≤ 399)
    (hm : 2 < m) :
    daysFromCivil yoe m d
      = eraYearStart yoe + ((153 * (m - 3) + 2) / 5 + d - 1) - 719468 := by
  simp only [daysFromCivil]
  rw [if_neg (by omega), if_pos hm]
  rw [show yoe - 0 = yoe by ring]
  rw [show yoe - yoe / 400 * 400 = yoe by omega]
  omega

theorem daysFromCivil_janFeb (yoe m d : Int) (h0 : 0 ≤ yoe) (h1 : yoe ≤ 399)
    (hm : m ≤ 2) :
    daysFromCivil (yoe + 1) m d
      = eraYearStart yoe + ((153 * (m + 9) + 2) / 5 + d - 1) - 719468 := by
  simp only [daysFromCivil]
  rw [if_pos hm, if_neg (by omega)]
  rw [show yoe + 1 - 1 = yoe by ring]
  rw [show yoe - yoe / 400 * 400 = yoe by omega]
  omega

/-- Round-trip: the day number of the civil date of `z` is `z`. -/
theorem daysFromCivil_civilFromDays (z : Int) :
    daysFromCivil (civilFromDays z).1 (civilFromDays z).2.1 (civilFromDays z).2.2 = z := by
  simp only [civilFromDays]
  set era := (z + 719468) / 146097 with hera
  set doe := (z + 719468) % 146097 with hdoe
  have hdoe0 : 0 ≤ doe := Int.emod_nonneg _ (by norm_num)
  have hdoe1 : doe < 146097 := Int.emod_lt_of_pos _ (by norm_num)
  have hsum : 146097 * era + doe = z + 719468 := Int.ediv_add_emod _ _
  obtain ⟨hy0, hy1, hs, hdoy⟩ := yoe_correct doe hdoe0 hdoe1
  set yoe := yoeOfDoe doe with hyoe
  set doy := doe - eraYearStart yoe with hdoydef
  set mp := (5 * doy + 2) / 153 with hmp
  have hmp0 : 0 ≤ mp := by omega
  have hmp1 : mp ≤ 11 := by omega
  set d := doy - (153 * mp + 2) / 5 + 1 with hd
  by_cases hmp10 : mp < 10
  · rw [if_pos hmp10, if_neg (by omega), add_zero,
      show yoe + era * 400 = yoe + 400 * era by ring,
      daysFromCivil_shift, daysFromCivil_marDec yoe (mp + 3) d hy0 hy1 (by omega),
      show mp + 3 - 3 = mp by ring]
    omega
  · rw [if_neg hmp10, if_pos (by omega),
      show yoe + era * 400 + 1 = (yoe + 1) + 400 * era by ring,
      daysFromCivil_shift, daysFromCivil_janFeb yoe (mp - 9) d hy0 hy1 (by omega),
      show mp - 9 + 9 = mp by ring]
    omega

/-- The month and day produced by `civilFromDays` are in range. -/
theorem civilFromDays_range (z : Int) :
    1 ≤ (civilFromDays z).2.1 ∧ (civilFromDays z).2.1 ≤ 12 ∧
    1 ≤ (civilFromDays z).2.2 ∧ (civilFromDays z).2.2 ≤ 31 := by
  simp only [civilFromDays]
  set doe := (z + 719468) % 146097 with hdoe
  have hdoe0 : 0 ≤ doe := Int.emod_nonneg _ (by norm_num)
  have hdoe1 : doe < 146097 := Int.emod_lt_of_pos _ (by norm_num)
  obtain ⟨hy0, hy1, hs, hdoy⟩ := yoe_correct doe hdoe0 hdoe1
  set yoe := yoeOfDoe doe with hyoe
  set doy := doe - eraYearStart yoe with hdoydef
  set mp := (5 * doy + 2) / 153 with hmp
  by_cases hmp10 : mp < 10 <;> [rw [if_pos hmp10]; rw [if_neg hmp10]] <;>
    refine ⟨by omega, by omega, by omega, by omega⟩

/-- Normal form of `daysFromCivil` used by the ordering lemmas. -/
theorem daysFromCivil_eq (y m d : Int) :
    daysFromCivil y m d
      = ((y - (if m ≤ 2 then 1 else 0)) / 400) * 146097
        + eraYearStart ((y - (if m ≤ 2 then 1 else 0)) % 400)
        + ((153 * (if 2 < m then m - 3 else m + 9) + 2) / 5 + d - 1) - 719468 := by
  simp only [daysFromCivil]
  rw [show y - (if m ≤ 2 then 1 else 0) - (y - (if m ≤ 2 then 1 else 0)) / 400 * 400
      = (y - (if m ≤ 2 then 1 else 0)) % 400 by omega]
  omega

/-- Day offsets are linear: moving the day field moves the day number. -/
theorem daysFromCivil_date_shift (y m d k : Int) :
    daysFromCivil y m (d + k) = daysFromCivil y m d + k := by
  simp only [daysFromCivil]
  omega

/-- Every civil year is 365 or 366 days long (year-start step fact). -/
theorem yearF_step (Y : Int) :
    365 ≤ (((Y+1)/400)*146097 + eraYearStart ((Y+1) % 400))
        - ((Y/400)*146097 + eraYearStart (Y % 400)) ∧
    (((Y+1)/400)*146097 + eraYearStart ((Y+1) % 400))
        - ((Y/400)*146097 + eraYearStart (Y % 400)) ≤ 366 := by
  unfold eraYearStart
  omega

/-- Moving to the next month (within a year) moves the day number forward
    by at least 28 days. -/
theorem daysFromCivil_month_step (y m d : Int) (h1 : 1 ≤ m) (h2 : m ≤ 11) :
    daysFromCivil y m d + 28 ≤ daysFromCivil y (m+1) d := by
  rw [daysFromCivil_eq, daysFromCivil_eq]
  by_cases hm1 : m = 1
  · subst hm1
    rw [if_pos (show (1:Int) ≤ 2 by norm_num),
      if_neg (show ¬((2:Int) < 1) by norm_num),
      if_pos (show (1:Int) + 1 ≤ 2 by norm_num),
      if_neg (show ¬((2:Int) < 1 + 1) by norm_num)]
    omega
  · by_cases hm2 : m = 2
    · subst hm2
      rw [if_pos (show (2:Int) ≤ 2 by norm_num),
        if_neg (show ¬((2:Int) < 2) by norm_num),
        if_neg (show ¬((2:Int) + 1 ≤ 2) by norm_num),
        if_pos (show (2:Int) < 2 + 1 by norm_num)]
      rw [show y - (0:Int) = (y - 1) + 1 by ring]
      have := yearF_step (y - 1)
      omega
    · have hm3 : 2 < m := by omega
      rw [if_neg (show ¬(m ≤ 2) by omega), if_pos hm3,
        if_neg (show ¬(m + 1 ≤ 2) by omega), if_pos (show 2 < m + 1 by omega)]
      omega

/-- December to January of the next year is 31 days. -/
theorem daysFromCivil_dec_jan (y d : Int) :
    daysFromCivil y 12 d + 31 = daysFromCivil (y+1) 1 d := by
  rw [daysFromCivil_eq, daysFromCivil_eq]
  rw [if_neg (by norm_num), if_pos (by norm_num),
    if_pos (by norm_num), if_neg (by norm_num)]
  rw [show y + 1 - (1:Int) = y - 0 by ring]
  omega

/-- Moving to the same month of the next year moves the day number
    forward by at least 365 days. -/
theorem daysFromCivil_year_step (y m d : Int) :
    daysFromCivil y m d + 365 ≤ daysFromCivil (y+1) m d := by
  rw [daysFromCivil_eq, daysFromCivil_eq]
  rw [show y + 1 - (if m ≤ 2 then (1:Int) else 0)
      = (y - (if m ≤ 2 then (1:Int) else 0)) + 1 by ring]
  have := yearF_step (y - (if m ≤ 2 then (1:Int) else 0))
  omega

/-- For an in-range 0-based month, `makeDay` needs no normalization. -/
theorem makeDay_eq_of_range (y m0 d : Int) (h0 : 0 ≤ m0) (h1 : m0 ≤ 11) :
    makeDay y m0 d = daysFromCivil y (m0 + 1) d := by
  unfold makeDay
  rw [show m0 / 12 = 0 by omega, show m0 % 12 = m0 by omega, add_zero]

theorem makeDay_date_shift (y m0 d k : Int) :
    makeDay y m0 (d + k) = makeDay y m0 d + k := by
  unfold makeDay
  exact daysFromCivil_date_shift _ _ _ _

/-- The `MakeDay` round-trip: rebuilding the date fields of a day number
    yields the day number. -/
theorem makeDay_civilFromDays (z : Int) :
    makeDay (civilFromDays z).1 ((civilFromDays z).2.1 - 1) (civilFromDays z).2.2 = z := by
  have hm := civilFromDays_range z
  unfold makeDay
  rw [show ((civilFromDays z).2.1 - 1) / 12 = 0 by omega,
    show ((civilFromDays z).2.1 - 1) % 12 = (civilFromDays z).2.1 - 1 by omega,
    add_zero, show (civilFromDays z).2.1 - 1 + 1 = (civilFromDays z).2.1 by ring]
  exact daysFromCivil_civilFromDays z

/-- Incrementing the 0-based month argument moves the day number forward
    by at least 28 days. -/
theorem makeDay_next_month (y m0 d : Int) (h0 : 0 ≤ m0) (h1 : m0 ≤ 11) :
    makeDay y m0 d + 28 ≤ makeDay y (m0 + 1) d := by
  rw [makeDay_eq_of_range y m0 d h0 h1]
  by_cases h10 : m0 ≤ 10
  · rw [makeDay_eq_of_range y (m0+1) d (by omega) (by omega)]
    exact daysFromCivil_month_step y (m0+1) d (by omega) (by omega)
  · have hm0 : m0 = 11 := by omega
    subst hm0
    unfold makeDay
    rw [show ((11:Int) + 1) / 12 = 1 by norm_num,
      show ((11:Int) + 1) % 12 = 0 by norm_num,
      show (11:Int) + 1 = 12 by norm_num, show (0:Int) + 1 = 1 by norm_num]
    have := daysFromCivil_dec_jan y d
    omega

/-- Incrementing the year argument moves the day number forward by at
    least 365 days. -/
theorem makeDay_next_year (y m0 d : Int) (h0 : 0 ≤ m0) (h1 : m0 ≤ 11) :
    makeDay y m0 d + 365 ≤ makeDay (y + 1) m0 d := by
  rw [makeDay_eq_of_range y m0 d h0 h1, makeDay_eq_of_range (y+1) m0 d h0 h1]
  exact daysFromCivil_year_step y (m0+1) d

/-! ## The subscription ledger (`src/lib/subscription.ts`) -/

/-- The `BillingCycle` union type `'weekly' | 'monthly' | 'yearly'`. -/
inductive BillingCycle
  | weekly
  | monthly
  | yearly
  deriving DecidableEq, Repr

/-- Source `calculateNextBillingDate(fromDate, cycle)`: builds a `Date` from the
    timestamp, then applies `setDate(getDate()+7)` / `setMonth(getMonth()+1)` /
    `setFullYear(getFullYear()+1)` and returns `getTime()`.  Each setter is
    ECMA-262 `MakeDate(MakeDay(year', month', date'), TimeWithinDay(t))`
    with the unmentioned fields read from `t`; `getMonth()` is 0-based. -/
def calculateNextBillingDate (fromDate : Int) (cycle : BillingCycle) : Int :=
  let z := dayNumber fromDate
  let c := civilFromDays z
  let newDay :=
    match cycle with
    | .weekly => makeDay c.1 (c.2.1 - 1) (c.2.2 + 7)
    | .monthly => makeDay c.1 (c.2.1 - 1 + 1) c.2.2
    | .yearly => makeDay (c.1 + 1) (c.2.1 - 1) c.2.2
  newDay * 86400000 + timeWithinDay fromDate

/-- The next billing date is strictly in the future of `fromDate`
    (by at least 7 days, whichever the cycle). -/
theorem calculateNextBillingDate_gt (t : Int) (c : BillingCycle) :
    t + 7 * 86400000 ≤ calculateNextBillingDate t c := by
  have hsplit : 86400000 * (t / 86400000) + t % 86400000 = t := Int.ediv_add_emod _ _
  have hm := civilFromDays_range (dayNumber t)
  have hrt := makeDay_civilFromDays (dayNumber t)
  cases c
  case weekly =>
    show _ ≤ makeDay _ _ _ * 86400000 + timeWithinDay t
    rw [makeDay_date_shift, hrt]
    unfold dayNumber timeWithinDay
    omega
  case monthly =>
    show _ ≤ makeDay _ _ _ * 86400000 + timeWithinDay t
    have hstep := makeDay_next_month (civilFromDays (dayNumber t)).1
      ((civilFromDays (dayNumber t)).2.1 - 1) (civilFromDays (dayNumber t)).2.2
      (by omega) (by omega)
    rw [hrt] at hstep
    unfold dayNumber timeWithinDay
    unfold dayNumber at hstep
    omega
  case yearly =>
    show _ ≤ makeDay _ _ _ * 86400000 + timeWithinDay t
    have hstep := makeDay_next_year (civilFromDays (dayNumber t)).1
      ((civilFromDays (dayNumber t)).2.1 - 1) (civilFromDays (dayNumber t)).2.2
      (by omega) (by omega)
    rw [hrt] at hstep
    unfold dayNumber timeWithinDay
    unfold dayNumber at hstep
    omega

/-- The `status` field: `'active' | 'cancelled' | 'expired'`. -/
inductive SubStatus
  | active
  | cancelled
  | expired
  deriving DecidableEq, Repr

/-- The `Subscription` record of `src/lib/subscription.ts`.  The USDC
    `amount` is only stored and copied by the ledger operations, so its
    JS `number` carrier is modelled as `ℚ`. -/
structure Subscription where
  id : String
  planId : String
  walletAddress : String
  merchantAddress : String
  amount : Rat
  billingCycle : BillingCycle
  startDate : Int
  nextBillingDate : Int
  status : SubStatus
  lastPaymentTx : Option String
  deriving DecidableEq, Repr

/-- A `localStorage` cell holding a value of type `α`: the key may be
    absent, hold text that `JSON.parse` rejects (throws on), or hold the
    serialization of a value of `α`. -/
inductive StorageCell (α : Type)
  | absent
  | malformed
  | stored (value : α)
  deriving DecidableEq, Repr

/-- Source `loadSubscriptions()`: `stored ? JSON.parse(stored) : []`, with the
    surrounding `try`/`catch` returning `[]` when `JSON.parse` throws. -/
def loadSubscriptions : StorageCell (List Subscription) → List Subscription
  | .stored subs => subs
  | _ => []

/-- Source `saveSubscriptions(subscriptions)`: overwrites the cell. -/
def saveSubscriptions (subscriptions : List Subscription) :
    StorageCell (List Subscription) :=
  .stored subscriptions

/-- JS `Array.prototype.findIndex`, with `-1` rendered as `none`. -/
def findIndex? (p : Subscription → Bool) : List Subscription → Option Nat
  | [] => none
  | sub :: rest => if p sub then some 0 else (findIndex? p rest).map (· + 1)

/-- JS in-place element assignment `array[index] = f(array[index])`. -/
def updateAt (i : Nat) (f : Subscription → Subscription) :
    List Subscription → List Subscription
  | [] => []
  | sub :: rest =>
    match i with
    | 0 => f sub :: rest
    | j+1 => sub :: updateAt j f rest

/-- Source `createSubscription(planId, walletAddress, merchantAddress, amount,
    billingCycle, paymentTx?)`.  `now` is `Date.now()` and `freshId` is the
    generated `` `sub_${now}_${random}` `` string.  The function loads the
    ledger, pushes the new record and saves; it is modelled on the loaded
    ledger, returning (returned record, saved ledger). -/
def createSubscription (now : Int) (freshId : String)
    (planId walletAddress merchantAddress : String) (amount : Rat)
    (billingCycle : BillingCycle) (paymentTx : Option String)
    (subscriptions : List Subscription) : Subscription × List Subscription :=
  let subscription : Subscription := {
    id := freshId
    planId := planId
    walletAddress := walletAddress
    merchantAddress := merchantAddress
    amount := amount
    billingCycle := billingCycle
    startDate := now
    nextBillingDate := calculateNextBillingDate now billingCycle
    status := .active
    lastPaymentTx := paymentTx }
  (subscription, subscriptions ++ [subscription])

/-- Source `cancelSubscription(subscriptionId)`: finds the record by id; on a miss
    returns `false` without saving; on a hit sets `status = 'cancelled'`
    and saves.  Modelled on the loaded ledger as (returned boolean, saved
    ledger). -/
def cancelSubscription (subscriptionId : String)
    (subscriptions : List Subscription) : Bool × List Subscription :=
  match findIndex? (fun sub => sub.id == subscriptionId) subscriptions with
  | none => (false, subscriptions)
  | some index =>
    (true, updateAt index (fun sub => { sub with status := .cancelled }) subscriptions)

/-- Source `recordPayment(subscriptionId, paymentTx)`: finds the record by id; on
    a miss returns `null` without saving; on a hit sets
    `lastPaymentTx = paymentTx`, recomputes `nextBillingDate` from
    `new Date()` (the call time `now`), saves, and returns the mutated
    record. -/
def recordPayment (now : Int) (subscriptionId paymentTx : String)
    (subscriptions : List Subscription) :
    Option Subscription × List Subscription :=
  match findIndex? (fun sub => sub.id == subscriptionId) subscriptions with
  | none => (none, subscriptions)
  | some index =>
    let upd := fun sub => { sub with
      lastPaymentTx := some paymentTx
      nextBillingDate := calculateNextBillingDate now sub.billingCycle }
    ((subscriptions[index]?).map upd, updateAt index upd subscriptions)

/-- Source `isPaymentDue(subscription)`: `false` unless `status === 'active'`,
    then `Date.now() >= nextBillingDate`. -/
def isPaymentDue (now : Int) (subscription : Subscription) : Bool :=
  if subscription.status ≠ SubStatus.active then false
  else decide (now ≥ subscription.nextBillingDate)

/-- Source `getDaysUntilBilling(subscription)`:
    `Math.max(0, Math.ceil(diff / dayMs))`.  For the integral `diff` and
    positive `dayMs` the rational ceiling equals `-((-diff) / dayMs)` in
    Euclidean integer division (both are exact in IEEE doubles at `Date`
    magnitudes). -/
def getDaysUntilBilling (now : Int) (subscription : Subscription) : Int :=
  max 0 (-(-(subscription.nextBillingDate - now) / 86400000))

/-! ## Session persistence (`src/hooks/use-session.ts`) -/

/-- The `SessionData` record. -/
structure SessionData where
  connected : Bool
  timestamp : Int
  walletAddress : Option String
  deriving DecidableEq, Repr

/-- Source `saveSession()`: writes the record with `connected: true`,
    the current `timestamp` and the `walletAddress` to the session cell
    (overwriting it; the write is assumed not to throw). -/
def saveSession (now : Int) (walletAddress : Option String) :
    StorageCell SessionData :=
  .stored { connected := true, timestamp := now, walletAddress := walletAddress }

/-- Source `loadSession()`: returns the parsed record, or `null` when the key is
    absent or `JSON.parse` throws (the `try`/`catch`). -/
def loadSession : StorageCell SessionData → Option SessionData
  | .stored session => some session
  | _ => none

/-- Source `isValidSession(session)`: `false` for a missing or disconnected
    record, otherwise `Date.now() - session.timestamp < expiryMs`. -/
def isValidSession (now expiryMs : Int) : Option SessionData → Bool
  | none => false
  | some session =>
    if !session.connected then false
    else decide (now - session.timestamp < expiryMs)

/-! ## Ledger operation sequences (for the status-transition invariant) -/

/-- The mutating ledger operations. -/
inductive LedgerOp
  | create (now : Int) (freshId planId walletAddress merchantAddress : String)
      (amount : Rat) (billingCycle : BillingCycle) (paymentTx : Option String)
  | cancel (subscriptionId : String)
  | payment (now : Int) (subscriptionId paymentTx : String)

/-- The ledger stored after running one operation on a loaded ledger. -/
def applyOp : LedgerOp → List Subscription → List Subscription
  | .create now freshId planId w mcht amt cyc ptx, subs =>
    (createSubscription now freshId planId w mcht amt cyc ptx subs).2
  | .cancel sid, subs => (cancelSubscription sid subs).2
  | .payment now sid ptx, subs => (recordPayment now sid ptx subs).2

/-- Ledgers reachable from the empty ledger by the three operations. -/
inductive ReachableLedger : List Subscription → Prop
  | nil : ReachableLedger []
  | step (op : LedgerOp) (subs : List Subscription) :
      ReachableLedger subs → ReachableLedger (applyOp op subs)

/-! ### Helper lemmas about `updateAt` and `findIndex?` -/

theorem updateAt_length (i : Nat) (f : Subscription → Subscription)
    (l : List Subscription) : (updateAt i f l).length = l.length := by
  induction l generalizing i with
  | nil => simp [updateAt]
  | cons s rest ih =>
    cases i with
    | zero => simp [updateAt]
    | succ j => simpa [updateAt] using ih j

theorem updateAt_getElem?_eq (i : Nat) (f : Subscription → Subscription)
    (l : List Subscription) : (updateAt i f l)[i]? = (l[i]?).map f := by
  induction l generalizing i with
  | nil => cases i <;> simp [updateAt]
  | cons s rest ih =>
    cases i with
    | zero => simp [updateAt]
    | succ j =>
      simp only [updateAt]
      rw [List.getElem?_cons_succ, List.getElem?_cons_succ]
      exact ih j

theorem updateAt_getElem?_ne (i j : Nat) (hij : i ≠ j)
    (f : Subscription → Subscription) (l : List Subscription) :
    (updateAt i f l)[j]? = l[j]? := by
  induction l generalizing i j with
  | nil => simp [updateAt]
  | cons s rest ih =>
    cases i with
    | zero =>
      cases j with
      | zero => exact absurd rfl hij
      | succ j' => simp [updateAt]
    | succ i' =>
      cases j with
      | zero => simp [updateAt]
      | succ j' =>
        simp only [updateAt]
        rw [List.getElem?_cons_succ, List.getElem?_cons_succ]
        exact ih i' j' (by omega)

theorem mem_updateAt (i : Nat) (f : Subscription → Subscription)
    (l : List Subscription) (x : Subscription) (hx : x ∈ updateAt i f l) :
    x ∈ l ∨ ∃ y, y ∈ l ∧ x = f y := by
  induction l generalizing i with
  | nil => simp only [updateAt] at hx; cases hx
  | cons s rest ih =>
    cases i with
    | zero =>
      simp only [updateAt] at hx
      rcases List.mem_cons.mp hx with h | h
      · exact Or.inr ⟨s, List.mem_cons_self _ _, h⟩
      · exact Or.inl (List.mem_cons_of_mem _ h)
    | succ j =>
      simp only [updateAt] at hx
      rcases List.mem_cons.mp hx with h | h
      · exact Or.inl (h ▸ List.mem_cons_self _ _)
      · rcases ih j h with h' | ⟨y, hy, hxy⟩
        · exact Or.inl (List.mem_cons_of_mem _ h')
        · exact Or.inr ⟨y, List.mem_cons_of_mem _ hy, hxy⟩

theorem findIndex?_eq_none (p : Subscription → Bool) (l : List Subscription)
    (h : ∀ x ∈ l, p x = false) : findIndex? p l = none := by
  induction l with
  | nil => rfl
  | cons s rest ih =>
    simp only [findIndex?, h s (List.mem_cons_self _ _), if_false,
      Bool.false_eq_true]
    rw [ih (fun x hx => h x (List.mem_cons_of_mem _ hx))]
    rfl

/-! ### The status invariant along operation sequences -/

/-- No operation ever writes `'expired'`, so reachable ledgers hold no
    expired record. -/
theorem reachable_no_expired (l : List Subscription) (h : ReachableLedger l) :
    ∀ s ∈ l, s.status ≠ SubStatus.expired := by
  induction h with
  | nil => intro s hs; cases hs
  | step op subs hr ih =>
    intro s hs
    cases op with
    | create now freshId planId w mcht amt cyc ptx =>
      simp only [applyOp, createSubscription] at hs
      rcases List.mem_append.mp hs with h' | h'
      · exact ih s h'
      · rcases List.mem_singleton.mp h' with rfl
        intro hcon
        cases hcon
    | cancel sid =>
      simp only [applyOp, cancelSubscription] at hs
      rcases hfi : findIndex? (fun sub => sub.id == sid) subs with _ | idx <;>
        rw [hfi] at hs
      · exact ih s hs
      · simp only at hs
        rcases mem_updateAt _ _ _ _ hs with h' | ⟨y, hy, rfl⟩
        · exact ih s h'
        · intro hcon
          cases hcon
    | payment now sid ptx =>
      simp only [applyOp, recordPayment] at hs
      rcases hfi : findIndex? (fun sub => sub.id == sid) subs with _ | idx <;>
        rw [hfi] at hs
      · exact ih s hs
      · simp only at hs
        rcases mem_updateAt _ _ _ _ hs with h' | ⟨y, hy, rfl⟩
        · exact ih s h'
        · exact ih y hy

/-! ### Ceiling of an exact division -/

/-- For integral numerator and the positive literal divisor, the rational
    ceiling agrees with negated Euclidean division of the negation. -/
theorem ceil_div_day (a : Int) :
    ⌈(a : ℚ) / 86400000⌉ = -((-a) / 86400000) := by
  rw [Int.ceil_eq_iff]
  constructor
  · rw [lt_div_iff₀ (by norm_num : (0:ℚ) < 86400000)]
    have h : ((-(-a / 86400000) : Int) - 1) * 86400000 < a := by omega
    exact_mod_cast h
  · rw [div_le_iff₀ (by norm_num : (0:ℚ) < 86400000)]
    have h : a ≤ (-(-a / 86400000) : Int) * 86400000 := by omega
    exact_mod_cast h

/-! ### Spec-side cycle arithmetic (for the refinement claim)

These two definitions follow the specification's words — "+1 calendar
month (same day-of-month, clamped by host date library semantics)" and
"+1 calendar year" — with an explicit December→January roll, to be
compared against `calculateNextBillingDate`. -/

def specPlusOneCalendarMonth (t : Int) : Int :=
  let c := civilFromDays (dayNumber t)
  (if c.2.1 = 12 then daysFromCivil (c.1 + 1) 1 c.2.2
   else daysFromCivil c.1 (c.2.1 + 1) c.2.2) * 86400000 + timeWithinDay t

def specPlusOneCalendarYear (t : Int) : Int :=
  let c := civilFromDays (dayNumber t)
  daysFromCivil (c.1 + 1) c.2.1 c.2.2 * 86400000 + timeWithinDay t

/-! ## The claims -/

/-- C6. For every date, `calculateNextBillingDate` adds exactly 7 calendar
    days (= `7 * msPerDay` in the UTC model) for `weekly`, one calendar
    month (same day-of-month, host `MakeDay` roll-over semantics) for
    `monthly`, and one calendar year (same month and day-of-month) for
    `yearly`. -/
theorem c6_calculateNextBillingDate_cycles (t : Int) :
    calculateNextBillingDate t BillingCycle.weekly = t + 7 * 86400000 ∧
    calculateNextBillingDate t BillingCycle.monthly = specPlusOneCalendarMonth t ∧
    calculateNextBillingDate t BillingCycle.yearly = specPlusOneCalendarYear t := by
  have hm := civilFromDays_range (dayNumber t)
  have hrt := makeDay_civilFromDays (dayNumber t)
  have hsplit : 86400000 * (t / 86400000) + t % 86400000 = t := Int.ediv_add_emod _ _
  refine ⟨?_, ?_, ?_⟩
  · show makeDay (civilFromDays (dayNumber t)).1 ((civilFromDays (dayNumber t)).2.1 - 1)
        ((civilFromDays (dayNumber t)).2.2 + 7) * 86400000 + timeWithinDay t
      = t + 7 * 86400000
    rw [makeDay_date_shift, hrt]
    unfold dayNumber timeWithinDay
    omega
  · show makeDay (civilFromDays (dayNumber t)).1 ((civilFromDays (dayNumber t)).2.1 - 1 + 1)
        (civilFromDays (dayNumber t)).2.2 * 86400000 + timeWithinDay t
      = specPlusOneCalendarMonth t
    simp only [specPlusOneCalendarMonth]
    rw [show (civilFromDays (dayNumber t)).2.1 - 1 + 1 = (civilFromDays (dayNumber t)).2.1 by ring]
    by_cases h12 : (civilFromDays (dayNumber t)).2.1 = 12
    · rw [if_pos h12]
      unfold makeDay
      rw [h12, show (12:Int)/12 = 1 by norm_num, show (12:Int) % 12 = 0 by norm_num,
        show (0:Int) + 1 = 1 by norm_num]
    · rw [if_neg h12]
      unfold makeDay
      rw [show (civilFromDays (dayNumber t)).2.1 / 12 = 0 by omega,
        show (civilFromDays (dayNumber t)).2.1 % 12 = (civilFromDays (dayNumber t)).2.1 by omega,
        add_zero]
  · show makeDay ((civilFromDays (dayNumber t)).1 + 1) ((civilFromDays (dayNumber t)).2.1 - 1)
        (civilFromDays (dayNumber t)).2.2 * 86400000 + timeWithinDay t
      = specPlusOneCalendarYear t
    simp only [specPlusOneCalendarYear]
    rw [makeDay_eq_of_range _ _ _ (by omega) (by omega),
      show (civilFromDays (dayNumber t)).2.1 - 1 + 1 = (civilFromDays (dayNumber t)).2.1 by ring]

/-- C7. `getDaysUntilBilling` equals
    `max(0, ⌈(nextBillingDate - now) / dayMs⌉)` with `dayMs` the number of
    milliseconds in 24 hours, and is `0` whenever `nextBillingDate` is at
    or before the current time. -/
theorem c7_getDaysUntilBilling_spec (now : Int) (sub : Subscription)
    (hpast : sub.nextBillingDate ≤ now) (sub₂ : Subscription) :
    getDaysUntilBilling now sub₂
      = max 0 ⌈((sub₂.nextBillingDate - now : Int) : ℚ) / ((24 * 60 * 60 * 1000 : Int) : ℚ)⌉ ∧
    getDaysUntilBilling now sub = 0 := by
  constructor
  · rw [show (((24 * 60 * 60 * 1000 : Int) : ℚ)) = 86400000 by norm_num, ceil_div_day]
    rfl
  · unfold getDaysUntilBilling
    omega

/-- A sample subscription whose billing date has passed. -/
def dueSub : Subscription :=
  ⟨"a", "p", "w", "m", 1, .weekly, 0, 3, .active, none⟩

/-- A sample subscription whose billing date is in the future. -/
def farSub : Subscription :=
  ⟨"b", "p", "w", "m", 1, .weekly, 0, 90000000, .active, none⟩

/-- C7 witness. -/
theorem c7_witness :
    getDaysUntilBilling 5 farSub
      = max 0 ⌈((farSub.nextBillingDate - 5 : Int) : ℚ) / ((24 * 60 * 60 * 1000 : Int) : ℚ)⌉ ∧
    getDaysUntilBilling 5 dueSub = 0 :=
  c7_getDaysUntilBilling_spec 5 dueSub (by decide) farSub

/-- C2. For a connected session record, `isValidSession` is true exactly
    when `now - timestamp < expiryMs` (strict, so false at the boundary
    instant); it is false for an absent record and for a record with
    `connected = false`. -/
theorem c2_isValidSession_spec (now expiryMs : Int) (s s₂ : SessionData)
    (hc : s.connected = true) (hc₂ : s₂.connected = false) :
    (isValidSession now expiryMs (some s) = true ↔ now - s.timestamp < expiryMs) ∧
    (now - s.timestamp = expiryMs → isValidSession now expiryMs (some s) = false) ∧
    isValidSession now expiryMs none = false ∧
    isValidSession now expiryMs (some s₂) = false := by
  refine ⟨?_, ?_, rfl, ?_⟩
  · simp [isValidSession, hc]
  · intro hb
    simp [isValidSession, hc]
    omega
  · simp [isValidSession, hc₂]

/-- A sample connected session. -/
def sessConnected : SessionData := ⟨true, 3, none⟩

/-- A sample disconnected session. -/
def sessDisconnected : SessionData := ⟨false, 3, none⟩

/-- C2 witness. -/
theorem c2_witness :
    (isValidSession 10 7 (some sessConnected) = true
      ↔ 10 - sessConnected.timestamp < 7) ∧
    (10 - sessConnected.timestamp = 7
      → isValidSession 10 7 (some sessConnected) = false) ∧
    isValidSession 10 7 none = false ∧
    isValidSession 10 7 (some sessDisconnected) = false :=
  c2_isValidSession_spec 10 7 sessConnected sessDisconnected rfl rfl

/-- C8. The load operations are total: for an absent or malformed stored
    value, `loadSession` returns `none` and `loadSubscriptions` returns
    the empty ledger (the record is silently discarded, not surfaced as
    an error). -/
theorem c8_load_self_healing (c : StorageCell SessionData)
    (c₂ : StorageCell (List Subscription))
    (hc : c = .absent ∨ c = .malformed)
    (hc₂ : c₂ = .absent ∨ c₂ = .malformed) :
    loadSession c = none ∧ loadSubscriptions c₂ = [] := by
  rcases hc with rfl | rfl <;> rcases hc₂ with rfl | rfl <;> exact ⟨rfl, rfl⟩

/-- C8 witness. -/
theorem c8_witness :
    loadSession (StorageCell.malformed) = none ∧
    loadSubscriptions (StorageCell.absent) = [] :=
  c8_load_self_healing StorageCell.malformed StorageCell.absent
    (Or.inr rfl) (Or.inl rfl)

/-- C9. `saveSession` followed immediately by `loadSession` returns a
    record whose `walletAddress` is the saved address and whose
    `connected` field is `true`. -/
theorem c9_save_load_roundtrip (now : Int) (walletAddress : Option String) :
    (loadSession (saveSession now walletAddress)).map SessionData.walletAddress
      = some walletAddress ∧
    (loadSession (saveSession now walletAddress)).map SessionData.connected
      = some true ∧
    (loadSession (saveSession now walletAddress)).map SessionData.timestamp
      = some now :=
  ⟨rfl, rfl, rfl⟩

/-- C5. `createSubscription` appends exactly one record to the ledger and
    returns it, with `status = active`, `startDate` the creation time and
    `nextBillingDate` one billing cycle later; `isPaymentDue` is false
    immediately after creation and true once the clock reaches
    `nextBillingDate`. -/
theorem c5_createSubscription_spec (now : Int) (freshId planId w mcht : String)
    (amount : Rat) (cycle : BillingCycle) (ptx : Option String)
    (subs : List Subscription) (t : Int)
    (ht : (createSubscription now freshId planId w mcht amount cycle ptx subs).1.nextBillingDate ≤ t) :
    (createSubscription now freshId planId w mcht amount cycle ptx subs).2
      = subs ++ [(createSubscription now freshId planId w mcht amount cycle ptx subs).1] ∧
    (createSubscription now freshId planId w mcht amount cycle ptx subs).1.status
      = SubStatus.active ∧
    (createSubscription now freshId planId w mcht amount cycle ptx subs).1.startDate = now ∧
    (createSubscription now freshId planId w mcht amount cycle ptx subs).1.nextBillingDate
      = calculateNextBillingDate now cycle ∧
    isPaymentDue now (createSubscription now freshId planId w mcht amount cycle ptx subs).1
      = false ∧
    isPaymentDue t (createSubscription now freshId planId w mcht amount cycle ptx subs).1
      = true := by
  have hst : (createSubscription now freshId planId w mcht amount cycle ptx subs).1.status
      = SubStatus.active := rfl
  have hnb : (createSubscription now freshId planId w mcht amount cycle ptx subs).1.nextBillingDate
      = calculateNextBillingDate now cycle := rfl
  have hgt := calculateNextBillingDate_gt now cycle
  refine ⟨rfl, rfl, rfl, rfl, ?_, ?_⟩
  · unfold isPaymentDue
    rw [if_neg (by rw [hst]; simp), hnb]
    rw [decide_eq_false]
    omega
  · unfold isPaymentDue
    rw [if_neg (by rw [hst]; simp), hnb]
    rw [decide_eq_true]
    rw [hnb] at ht
    omega

/-- C5 witness. -/
theorem c5_witness :
    (createSubscription 0 "sub_1" "basic" "w" "m" 1 .monthly none []).2
      = [] ++ [(createSubscription 0 "sub_1" "basic" "w" "m" 1 .monthly none []).1] ∧
    (createSubscription 0 "sub_1" "basic" "w" "m" 1 .monthly none []).1.status
      = SubStatus.active ∧
    (createSubscription 0 "sub_1" "basic" "w" "m" 1 .monthly none []).1.startDate = 0 ∧
    (createSubscription 0 "sub_1" "basic" "w" "m" 1 .monthly none []).1.nextBillingDate
      = calculateNextBillingDate 0 .monthly ∧
    isPaymentDue 0 (createSubscription 0 "sub_1" "basic" "w" "m" 1 .monthly none []).1
      = false ∧
    isPaymentDue 9999999999 (createSubscription 0 "sub_1" "basic" "w" "m" 1 .monthly none []).1
      = true :=
  c5_createSubscription_spec 0 "sub_1" "basic" "w" "m" 1 .monthly none [] 9999999999
    (by decide)

/-- C4. `cancelSubscription` on an id that matches no record returns
    `false` and leaves the ledger unchanged (a miss does not even reach
    the save). -/
theorem c4_cancelSubscription_unknown_id (subscriptionId : String)
    (subs : List Subscription)
    (h : ∀ sub ∈ subs, (sub.id == subscriptionId) = false) :
    cancelSubscription subscriptionId subs = (false, subs) := by
  unfold cancelSubscription
  rw [findIndex?_eq_none _ _ h]

/-- C4 witness. -/
theorem c4_witness : cancelSubscription "missing" [dueSub] = (false, [dueSub]) :=
  c4_cancelSubscription_unknown_id "missing" [dueSub] (by decide)

/-- The mutation `recordPayment` applies to the matched record:
    `subscription.lastPaymentTx = paymentTx;
     subscription.nextBillingDate = calculateNextBillingDate(new Date(), …)`. -/
def paidUpdate (now : Int) (paymentTx : String) (sub : Subscription) : Subscription :=
  { sub with lastPaymentTx := some paymentTx
             nextBillingDate := calculateNextBillingDate now sub.billingCycle }

theorem recordPayment_found (now : Int) (subscriptionId paymentTx : String)
    (subs : List Subscription) (i : Nat)
    (hi : findIndex? (fun sub => sub.id == subscriptionId) subs = some i) :
    recordPayment now subscriptionId paymentTx subs
      = ((subs[i]?).map (paidUpdate now paymentTx),
         updateAt i (paidUpdate now paymentTx) subs) := by
  unfold recordPayment
  rw [hi]
  rfl

theorem cancelSubscription_found (subscriptionId : String)
    (subs : List Subscription) (i : Nat)
    (hi : findIndex? (fun sub => sub.id == subscriptionId) subs = some i) :
    cancelSubscription subscriptionId subs
      = (true, updateAt i (fun sub => { sub with status := SubStatus.cancelled }) subs) := by
  unfold cancelSubscription
  rw [hi]

/-- C3. `recordPayment` on a matching id returns the record with
    `lastPaymentTx = paymentTx` and `nextBillingDate` one cycle after the
    call time (and stores it); the new `nextBillingDate` is strictly after
    the call time, hence strictly after the old one for a due
    subscription.  On a miss it returns `null` with the ledger
    unchanged. -/
theorem c3_recordPayment_spec (now : Int) (subscriptionId paymentTx : String)
    (subs subs₂ : List Subscription) (i : Nat) (s : Subscription)
    (hi : findIndex? (fun sub => sub.id == subscriptionId) subs = some i)
    (hs : subs[i]? = some s)
    (hnone : findIndex? (fun sub => sub.id == subscriptionId) subs₂ = none) :
    (recordPayment now subscriptionId paymentTx subs).1 = some (paidUpdate now paymentTx s) ∧
    ((recordPayment now subscriptionId paymentTx subs).2)[i]?
      = some (paidUpdate now paymentTx s) ∧
    (paidUpdate now paymentTx s).lastPaymentTx = some paymentTx ∧
    (paidUpdate now paymentTx s).nextBillingDate
      = calculateNextBillingDate now s.billingCycle ∧
    now < (paidUpdate now paymentTx s).nextBillingDate ∧
    (s.nextBillingDate ≤ now →
      s.nextBillingDate < (paidUpdate now paymentTx s).nextBillingDate) ∧
    recordPayment now subscriptionId paymentTx subs₂ = (none, subs₂) := by
  have hgt := calculateNextBillingDate_gt now s.billingCycle
  have hnb : (paidUpdate now paymentTx s).nextBillingDate
      = calculateNextBillingDate now s.billingCycle := rfl
  rw [recordPayment_found now subscriptionId paymentTx subs i hi]
  refine ⟨?_, ?_, rfl, rfl, by omega, by omega, ?_⟩
  · rw [hs]
    rfl
  · rw [updateAt_getElem?_eq, hs]
    rfl
  · unfold recordPayment
    rw [hnone]

/-- C3 witness. -/
theorem c3_witness :
    (recordPayment 5 "a" "tx9" [dueSub]).1 = some (paidUpdate 5 "tx9" dueSub) ∧
    ((recordPayment 5 "a" "tx9" [dueSub]).2)[0]? = some (paidUpdate 5 "tx9" dueSub) ∧
    (paidUpdate 5 "tx9" dueSub).lastPaymentTx = some "tx9" ∧
    (paidUpdate 5 "tx9" dueSub).nextBillingDate
      = calculateNextBillingDate 5 dueSub.billingCycle ∧
    (5:Int) < (paidUpdate 5 "tx9" dueSub).nextBillingDate ∧
    (dueSub.nextBillingDate ≤ 5 →
      dueSub.nextBillingDate < (paidUpdate 5 "tx9" dueSub).nextBillingDate) ∧
    recordPayment 5 "a" "tx9" [] = (none, []) :=
  c3_recordPayment_spec 5 "a" "tx9" [dueSub] [] 0 dueSub rfl rfl rfl

/-- C10. `cancelSubscription` on a matching id flips only the `status`
    field of the matched record: the ledger keeps its length, every other
    position is untouched, and every other field of the matched record is
    preserved. -/
theorem c10_cancelSubscription_frame (subscriptionId : String)
    (subs : List Subscription) (i j : Nat) (s : Subscription)
    (hi : findIndex? (fun sub => sub.id == subscriptionId) subs = some i)
    (hs : subs[i]? = some s) (hj : j ≠ i) :
    (cancelSubscription subscriptionId subs).1 = true ∧
    ((cancelSubscription subscriptionId subs).2).length = subs.length ∧
    ((cancelSubscription subscriptionId subs).2)[j]? = subs[j]? ∧
    ((cancelSubscription subscriptionId subs).2)[i]?
      = some { s with status := SubStatus.cancelled } ∧
    ({ s with status := SubStatus.cancelled } : Subscription).id = s.id ∧
    ({ s with status := SubStatus.cancelled } : Subscription).planId = s.planId ∧
    ({ s with status := SubStatus.cancelled } : Subscription).walletAddress = s.walletAddress ∧
    ({ s with status := SubStatus.cancelled } : Subscription).merchantAddress = s.merchantAddress ∧
    ({ s with status := SubStatus.cancelled } : Subscription).amount = s.amount ∧
    ({ s with status := SubStatus.cancelled } : Subscription).billingCycle = s.billingCycle ∧
    ({ s with status := SubStatus.cancelled } : Subscription).startDate = s.startDate ∧
    ({ s with status := SubStatus.cancelled } : Subscription).nextBillingDate = s.nextBillingDate ∧
    ({ s with status := SubStatus.cancelled } : Subscription).lastPaymentTx = s.lastPaymentTx := by
  rw [cancelSubscription_found subscriptionId subs i hi]
  refine ⟨rfl, updateAt_length _ _ _, updateAt_getElem?_ne _ _ (by omega) _ _, ?_,
    rfl, rfl, rfl, rfl, rfl, rfl, rfl, rfl, rfl⟩
  rw [updateAt_getElem?_eq, hs]
  rfl

/-- C10 witness. -/
theorem c10_witness :
    (cancelSubscription "a" [dueSub]).1 = true ∧
    ((cancelSubscription "a" [dueSub]).2).length = [dueSub].length ∧
    ((cancelSubscription "a" [dueSub]).2)[1]? = [dueSub][1]? ∧
    ((cancelSubscription "a" [dueSub]).2)[0]?
      = some { dueSub with status := SubStatus.cancelled } ∧
    ({ dueSub with status := SubStatus.cancelled } : Subscription).id = dueSub.id ∧
    ({ dueSub with status := SubStatus.cancelled } : Subscription).planId = dueSub.planId ∧
    ({ dueSub with status := SubStatus.cancelled } : Subscription).walletAddress = dueSub.walletAddress ∧
    ({ dueSub with status := SubStatus.cancelled } : Subscription).merchantAddress = dueSub.merchantAddress ∧
    ({ dueSub with status := SubStatus.cancelled } : Subscription).amount = dueSub.amount ∧
    ({ dueSub with status := SubStatus.cancelled } : Subscription).billingCycle = dueSub.billingCycle ∧
    ({ dueSub with status := SubStatus.cancelled } : Subscription).startDate = dueSub.startDate ∧
    ({ dueSub with status := SubStatus.cancelled } : Subscription).nextBillingDate = dueSub.nextBillingDate ∧
    ({ dueSub with status := SubStatus.cancelled } : Subscription).lastPaymentTx = dueSub.lastPaymentTx :=
  c10_cancelSubscription_frame "a" [dueSub] 0 1 dueSub rfl rfl (by omega)

/-- C1. Along any sequence of ledger operations from the empty ledger, a
    record's `status` either stays what it was or moves from `active` to
    `cancelled`/`expired`; it never leaves `cancelled` and never leaves
    `expired`. -/
theorem c1_status_transitions (l : List Subscription) (hl : ReachableLedger l)
    (op : LedgerOp) (i : Nat) (s s' : Subscription)
    (hs : l[i]? = some s) (hs' : (applyOp op l)[i]? = some s') :
    (s'.status = s.status ∨
      (s.status = SubStatus.active ∧
        (s'.status = SubStatus.cancelled ∨ s'.status = SubStatus.expired))) ∧
    (s.status = SubStatus.cancelled → s'.status = SubStatus.cancelled) ∧
    (s.status = SubStatus.expired → s'.status = SubStatus.expired) := by
  have hmain : s'.status = s.status ∨
      (s.status = SubStatus.active ∧
        (s'.status = SubStatus.cancelled ∨ s'.status = SubStatus.expired)) := by
    cases op with
    | create now freshId planId w mcht amt cyc ptx =>
      simp only [applyOp, createSubscription] at hs'
      have hlen : i < l.length := (List.getElem?_eq_some.mp hs).1
      rw [List.getElem?_append, if_pos hlen, hs] at hs'
      cases hs'
      exact Or.inl rfl
    | cancel sid =>
      rcases hfi : findIndex? (fun sub => sub.id == sid) l with _ | idx
      · have hunch : applyOp (LedgerOp.cancel sid) l = l := by
          simp only [applyOp]
          unfold cancelSubscription
          rw [hfi]
        rw [hunch, hs] at hs'
        cases hs'
        exact Or.inl rfl
      · have hfound : applyOp (LedgerOp.cancel sid) l
            = updateAt idx (fun sub => { sub with status := SubStatus.cancelled }) l := by
          simp only [applyOp]
          rw [cancelSubscription_found sid l idx hfi]
        rw [hfound] at hs'
        by_cases hii : idx = i
        · subst hii
          rw [updateAt_getElem?_eq, hs] at hs'
          cases hs'
          rcases hstat : s.status with _ | _ | _
          · exact Or.inr ⟨rfl, Or.inl rfl⟩
          · exact Or.inl (by simp [hstat])
          · exact absurd hstat (reachable_no_expired l hl s (List.getElem?_mem hs))
        · rw [updateAt_getElem?_ne idx i hii, hs] at hs'
          cases hs'
          exact Or.inl rfl
    | payment now sid ptx =>
      rcases hfi : findIndex? (fun sub => sub.id == sid) l with _ | idx
      · have hunch : applyOp (LedgerOp.payment now sid ptx) l = l := by
          simp only [applyOp]
          unfold recordPayment
          rw [hfi]
        rw [hunch, hs] at hs'
        cases hs'
        exact Or.inl rfl
      · have hfound : applyOp (LedgerOp.payment now sid ptx) l
            = updateAt idx (paidUpdate now ptx) l := by
          simp only [applyOp]
          rw [recordPayment_found now sid ptx l idx hfi]
        rw [hfound] at hs'
        by_cases hii : idx = i
        · subst hii
          rw [updateAt_getElem?_eq, hs] at hs'
          cases hs'
          exact Or.inl rfl
        · rw [updateAt_getElem?_ne idx i hii, hs] at hs'
          cases hs'
          exact Or.inl rfl
  refine ⟨hmain, ?_, ?_⟩
  · intro hc
    rcases hmain with h | ⟨ha, _⟩
    · rw [h, hc]
    · rw [ha] at hc
      cases hc
  · intro hc
    rcases hmain with h | ⟨ha, _⟩
    · rw [h, hc]
    · rw [ha] at hc
      cases hc

/-- The creation operation used by the C1 witness. -/
def sampleCreateOp : LedgerOp :=
  .create 0 "sub_0_demo" "basic" "wallet1" "merchant1" 1 .monthly none

/-- A one-record ledger reachable from the empty ledger. -/
def sampleLedger : List Subscription := applyOp sampleCreateOp []

/-- The record held by `sampleLedger`. -/
def sampleSub : Subscription :=
  (createSubscription 0 "sub_0_demo" "basic" "wallet1" "merchant1" 1 .monthly none []).1

/-- C1 witness. -/
theorem c1_witness :
    ((({ sampleSub with status := SubStatus.cancelled } : Subscription).status = sampleSub.status ∨
      (sampleSub.status = SubStatus.active ∧
        (({ sampleSub with status := SubStatus.cancelled } : Subscription).status = SubStatus.cancelled ∨
         ({ sampleSub with status := SubStatus.cancelled } : Subscription).status = SubStatus.expired)))) ∧
    (sampleSub.status = SubStatus.cancelled →
      ({ sampleSub with status := SubStatus.cancelled } : Subscription).status = SubStatus.cancelled) ∧
    (sampleSub.status = SubStatus.expired →
      ({ sampleSub with status := SubStatus.cancelled } : Subscription).status = SubStatus.expired) :=
  c1_status_transitions sampleLedger
    (ReachableLedger.step sampleCreateOp [] ReachableLedger.nil)
    (LedgerOp.cancel "sub_0_demo") 0 sampleSub
    { sampleSub with status := SubStatus.cancelled } rfl rfl
